import Mathlib

/-!
Verification of the face-tracking coordinate pipeline
(`src/hooks/useFacePipeline.ts`).

JavaScript numbers are modelled as rationals (`ℚ`); `Math.floor` is
`Int.floor`, `Math.ceil` is `Int.ceil`.  Pixel rectangles carry integer
(`ℤ`) coordinates, as the source produces them via `Math.floor`.
-/

namespace FacePipeline

/-- A 2-D point with rational coordinates (`{x, y}` objects in the source). -/
structure Point where
  x : ℚ
  y : ℚ
  deriving DecidableEq, Repr

/-- `NormalizedRect` from `useFacePipeline.ts`: a detection box in
frame-relative coordinates. -/
structure NormalizedRect where
  xCenter : ℚ
  yCenter : ℚ
  width : ℚ
  height : ℚ
  rotation : ℚ
  deriving DecidableEq, Repr

/-- `PixelRect` from `useFacePipeline.ts`: an ROI in integer pixel units. -/
structure PixelRect where
  x : ℤ
  y : ℤ
  width : ℤ
  height : ℤ
  deriving DecidableEq, Repr

/-- `clamp(value, min, max) = Math.min(Math.max(value, min), max)`.
Generic over a linear order, as the source's arithmetic clamp is used on
both fractional values and integer pixel indices. -/
def clamp {α : Type} [LinearOrder α] (value lo hi : α) : α :=
  min (max value lo) hi

/-- `toPixelRect` (lines 66–91): scale a normalized rect to pixels, inflate
by `(1 + padding)`, clamp each edge to the frame, floor-round, and force
width/height to be at least 1. -/
def toPixelRect (rect : NormalizedRect) (imageWidth imageHeight padding : ℚ) :
    PixelRect :=
  let width := rect.width * imageWidth
  let height := rect.height * imageHeight
  let centerX := rect.xCenter * imageWidth
  let centerY := rect.yCenter * imageHeight
  let paddedWidth := width * (1 + padding)
  let paddedHeight := height * (1 + padding)
  let x := clamp (centerX - paddedWidth / 2) 0 imageWidth
  let y := clamp (centerY - paddedHeight / 2) 0 imageHeight
  let right := clamp (centerX + paddedWidth / 2) 0 imageWidth
  let bottom := clamp (centerY + paddedHeight / 2) 0 imageHeight
  { x := ⌊x⌋
    y := ⌊y⌋
    width := max 1 ⌊right - x⌋
    height := max 1 ⌊bottom - y⌋ }

/-- `NormalizedLandmark` from `useFacePipeline.ts`: optional fields are
modelled with `Option`. -/
structure NormalizedLandmark where
  x : ℚ
  y : ℚ
  z : Option ℚ
  visibility : Option ℚ
  presence : Option ℚ
  deriving DecidableEq, Repr

/-- `toNormalizedLandmarks` (lines 93–105): remap crop-local landmarks to
frame-global normalized coordinates using the ROI that produced the crop. -/
def toNormalizedLandmarks (landmarks : List NormalizedLandmark)
    (roi : PixelRect) (imageWidth imageHeight : ℚ) :
    List NormalizedLandmark :=
  landmarks.map fun landmark =>
    { x := ((roi.x : ℚ) + landmark.x * (roi.width : ℚ)) / imageWidth
      y := ((roi.y : ℚ) + landmark.y * (roi.height : ℚ)) / imageHeight
      z := landmark.z
      visibility := landmark.visibility
      presence := landmark.presence }

/-- `pointInPolygon` (lines 116–128): even-odd ray casting.  The loop
runs `i` over all vertex indices with `j` the predecessor index
(wrapping to the last vertex for `i = 0`), toggling `inside` on each
crossing edge. -/
def pointInPolygon (x y : ℚ) (polygon : List Point) : Bool :=
  (List.range polygon.length).foldl
    (fun inside i =>
      let j := if i = 0 then polygon.length - 1 else i - 1
      let xi := (polygon.getD i ⟨0, 0⟩).x
      let yi := (polygon.getD i ⟨0, 0⟩).y
      let xj := (polygon.getD j ⟨0, 0⟩).x
      let yj := (polygon.getD j ⟨0, 0⟩).y
      let intersect :=
        (decide (yi > y) != decide (yj > y)) &&
          decide (x < (xj - xi) * (y - yi) / (yj - yi) + xi)
      if intersect then !inside else inside)
    false

theorem clamp_of_le {α : Type} [LinearOrder α] {value lo hi : α}
    (h0 : lo ≤ value) (h1 : value ≤ hi) : clamp value lo hi = value := by
  rw [clamp, max_eq_left h0, min_eq_left h1]

/-- One-dimensional core of the ROI bounds: for a center `c ≤ W` and a
strictly positive padded size `s`, the floored clamped left edge and the
`max 1 ⌊·⌋` extent stay inside `[0, W]`. -/
theorem floor_clamp_dim (c s : ℚ) (W : ℕ) (hs : 0 < s) (hc : c ≤ W)
    (hW : 1 ≤ W) :
    0 ≤ ⌊clamp (c - s / 2) 0 (W : ℚ)⌋ ∧
    ⌊clamp (c - s / 2) 0 (W : ℚ)⌋ +
      max 1 ⌊clamp (c + s / 2) 0 (W : ℚ) - clamp (c - s / 2) 0 (W : ℚ)⌋ ≤ W ∧
    1 ≤ max 1 ⌊clamp (c + s / 2) 0 (W : ℚ) - clamp (c - s / 2) 0 (W : ℚ)⌋ := by
  have hWQ : (0 : ℚ) < W := by
    have : (1 : ℚ) ≤ W := by exact_mod_cast hW
    linarith
  set a := clamp (c - s / 2) 0 (W : ℚ) with ha
  set r := clamp (c + s / 2) 0 (W : ℚ) with hr
  have ha0 : 0 ≤ a := le_min (le_max_right _ _) (le_of_lt hWQ)
  have harW : r ≤ W := min_le_right _ _
  have haltW : a < W := by
    have h1 : c - s / 2 < W := by linarith
    calc a ≤ max (c - s / 2) 0 := min_le_left _ _
      _ < W := max_lt h1 hWQ
  have hfx0 : 0 ≤ ⌊a⌋ := Int.floor_nonneg.mpr ha0
  have hfx1 : ⌊a⌋ + 1 ≤ (W : ℤ) := by
    have : ⌊a⌋ < (W : ℤ) := Int.floor_lt.mpr (by push_cast; exact haltW)
    omega
  have hfx2 : ⌊a⌋ + ⌊r - a⌋ ≤ (W : ℤ) := by
    have hle : ((⌊a⌋ + ⌊r - a⌋ : ℤ) : ℚ) ≤ r := by
      push_cast
      have := Int.floor_le a
      have := Int.floor_le (r - a)
      linarith
    have : (⌊a⌋ + ⌊r - a⌋ : ℤ) ≤ ⌊r⌋ := Int.le_floor.mpr hle
    have hrW : ⌊r⌋ ≤ (W : ℤ) := by
      have := Int.floor_le_floor harW
      rwa [Int.floor_natCast] at this
    omega
  refine ⟨hfx0, ?_, le_max_left _ _⟩
  rw [← max_add_add_left]
  exact max_le hfx1 hfx2

/-- C1 (amended): for a normalized rect with centers in `[0,1]` and
strictly positive sizes at most 1, any frame `W × H` with `W, H ≥ 1`, and
any padding `p ≥ 0`, the ROI returned by `toPixelRect` has nonnegative
corner, extents at least 1, and stays inside the frame. -/
theorem toPixelRect_bounds (rect : NormalizedRect) (W H : ℕ) (padding : ℚ)
    (hx0 : 0 ≤ rect.xCenter) (hx1 : rect.xCenter ≤ 1)
    (hy0 : 0 ≤ rect.yCenter) (hy1 : rect.yCenter ≤ 1)
    (hw0 : 0 < rect.width) (hw1 : rect.width ≤ 1)
    (hh0 : 0 < rect.height) (hh1 : rect.height ≤ 1)
    (hW : 1 ≤ W) (hH : 1 ≤ H) (hpad : 0 ≤ padding) :
    0 ≤ (toPixelRect rect W H padding).x ∧
    0 ≤ (toPixelRect rect W H padding).y ∧
    (toPixelRect rect W H padding).x + (toPixelRect rect W H padding).width
      ≤ (W : ℤ) ∧
    (toPixelRect rect W H padding).y + (toPixelRect rect W H padding).height
      ≤ (H : ℤ) ∧
    1 ≤ (toPixelRect rect W H padding).width ∧
    1 ≤ (toPixelRect rect W H padding).height := by
  have hWQ : (0 : ℚ) < W := by
    have : (1 : ℚ) ≤ W := by exact_mod_cast hW
    linarith
  have hHQ : (0 : ℚ) < H := by
    have : (1 : ℚ) ≤ H := by exact_mod_cast hH
    linarith
  have hsx : 0 < rect.width * W * (1 + padding) := by
    have := mul_pos hw0 hWQ
    nlinarith
  have hsy : 0 < rect.height * H * (1 + padding) := by
    have := mul_pos hh0 hHQ
    nlinarith
  have hcx : rect.xCenter * W ≤ W := by nlinarith
  have hcy : rect.yCenter * H ≤ H := by nlinarith
  obtain ⟨hx0, hxw, hxe⟩ :=
    floor_clamp_dim (rect.xCenter * W) (rect.width * W * (1 + padding)) W
      hsx hcx hW
  obtain ⟨hy0, hyh, hye⟩ :=
    floor_clamp_dim (rect.yCenter * H) (rect.height * H * (1 + padding)) H
      hsy hcy hH
  exact ⟨hx0, hy0, hxw, hyh, hxe, hye⟩

/-- C1 witness: concrete in-range inputs satisfy the amended hypotheses
and hence the bounds. -/
theorem toPixelRect_bounds_witness :
    ((0 : ℚ) ≤ 1 / 2 ∧ (1 : ℚ) / 2 ≤ 1 ∧ (0 : ℚ) < 1 / 5 ∧
      (1 : ℚ) / 5 ≤ 1 ∧ (0 : ℚ) < 3 / 10 ∧ (3 : ℚ) / 10 ≤ 1 ∧
      (0 : ℚ) ≤ 18 / 100) ∧
    (0 ≤ (toPixelRect ⟨1/2, 1/2, 1/5, 3/10, 0⟩ 640 480 (18/100)).x ∧
     0 ≤ (toPixelRect ⟨1/2, 1/2, 1/5, 3/10, 0⟩ 640 480 (18/100)).y ∧
     (toPixelRect ⟨1/2, 1/2, 1/5, 3/10, 0⟩ 640 480 (18/100)).x +
       (toPixelRect ⟨1/2, 1/2, 1/5, 3/10, 0⟩ 640 480 (18/100)).width
       ≤ ((640 : ℕ) : ℤ) ∧
     (toPixelRect ⟨1/2, 1/2, 1/5, 3/10, 0⟩ 640 480 (18/100)).y +
       (toPixelRect ⟨1/2, 1/2, 1/5, 3/10, 0⟩ 640 480 (18/100)).height
       ≤ ((480 : ℕ) : ℤ) ∧
     1 ≤ (toPixelRect ⟨1/2, 1/2, 1/5, 3/10, 0⟩ 640 480 (18/100)).width ∧
     1 ≤ (toPixelRect ⟨1/2, 1/2, 1/5, 3/10, 0⟩ 640 480 (18/100)).height) :=
  ⟨by norm_num,
    toPixelRect_bounds ⟨1/2, 1/2, 1/5, 3/10, 0⟩ 640 480 (18/100)
      (by norm_num) (by norm_num) (by norm_num) (by norm_num)
      (by norm_num) (by norm_num) (by norm_num) (by norm_num)
      (by norm_num) (by norm_num) (by norm_num)⟩

/-- C1 counterexample: for a zero-size rect — allowed by the claim's
hypothesis `width, height ∈ [0,1]` — at `xCenter = yCenter = 1` the ROI
overflows the frame: `toPixelRect` returns `x = 10, width = 1` on a
`10 × 10` frame, so `x + width = 11 > 10`. -/
theorem toPixelRect_bounds_counterexample :
    ¬(0 ≤ (toPixelRect ⟨1, 1, 0, 0, 0⟩ 10 10 0).x ∧
      0 ≤ (toPixelRect ⟨1, 1, 0, 0, 0⟩ 10 10 0).y ∧
      (toPixelRect ⟨1, 1, 0, 0, 0⟩ 10 10 0).x +
        (toPixelRect ⟨1, 1, 0, 0, 0⟩ 10 10 0).width ≤ (10 : ℤ) ∧
      (toPixelRect ⟨1, 1, 0, 0, 0⟩ 10 10 0).y +
        (toPixelRect ⟨1, 1, 0, 0, 0⟩ 10 10 0).height ≤ (10 : ℤ) ∧
      1 ≤ (toPixelRect ⟨1, 1, 0, 0, 0⟩ 10 10 0).width ∧
      1 ≤ (toPixelRect ⟨1, 1, 0, 0, 0⟩ 10 10 0).height) := by
  norm_num [toPixelRect, clamp]

/-- C2: the remapper preserves length and index order, each output
landmark obeys `global = (roi.corner + local · roi.extent) / frame`,
passes `z`, `visibility`, `presence` through, and a crop-local landmark
at `(0,0)` lands on the ROI's top-left corner in global-normalized
coordinates. -/
theorem toNormalizedLandmarks_spec (landmarks : List NormalizedLandmark)
    (roi : PixelRect) (W H : ℚ) :
    (toNormalizedLandmarks landmarks roi W H).length = landmarks.length ∧
    (∀ i : ℕ, (toNormalizedLandmarks landmarks roi W H).get? i =
      (landmarks.get? i).map fun landmark =>
        { x := ((roi.x : ℚ) + landmark.x * (roi.width : ℚ)) / W
          y := ((roi.y : ℚ) + landmark.y * (roi.height : ℚ)) / H
          z := landmark.z
          visibility := landmark.visibility
          presence := landmark.presence }) ∧
    (∀ i landmark, landmarks.get? i = some landmark → landmark.x = 0 →
      landmark.y = 0 →
      (toNormalizedLandmarks landmarks roi W H).get? i =
        some { x := (roi.x : ℚ) / W, y := (roi.y : ℚ) / H,
               z := landmark.z, visibility := landmark.visibility,
               presence := landmark.presence }) := by
  refine ⟨List.length_map _ _, fun i => ?_, fun i landmark hi hx hy => ?_⟩
  · rw [toNormalizedLandmarks, List.get?_map]
  · rw [toNormalizedLandmarks, List.get?_map, hi, Option.map_some']
    simp [hx, hy]

/-- C2 witness: a single crop-local landmark at `(0,0)` with ROI corner
`(2,3)` on a `10 × 20` frame remaps to `(1/5, 3/20)`. -/
theorem toNormalizedLandmarks_spec_witness :
    ([(⟨0, 0, none, none, none⟩ : NormalizedLandmark)].get? 0 =
      some (⟨0, 0, none, none, none⟩ : NormalizedLandmark)) ∧
    (toNormalizedLandmarks [⟨0, 0, none, none, none⟩] ⟨2, 3, 4, 5⟩ 10 20).get? 0
      = some ⟨1/5, 3/20, none, none, none⟩ :=
  ⟨rfl,
    ((toNormalizedLandmarks_spec [⟨0, 0, none, none, none⟩] ⟨2, 3, 4, 5⟩
      10 20).2.2 0 ⟨0, 0, none, none, none⟩ rfl rfl rfl).trans
      (by norm_num)⟩

/-- C4 counterexample: the spec's worked example is wrong about the code.
On rect `{xCenter: 1/2, yCenter: 1/2, width: 1/5, height: 3/10}` with a
`640 × 480` frame and padding 0, `toPixelRect` returns
`x = 256, y = 168` (the floor of the unpadded box corner), not
`x = 192, y = 84`. -/
theorem toPixelRect_example_counterexample :
    toPixelRect ⟨1/2, 1/2, 1/5, 3/10, 0⟩ 640 480 0 ≠
      { x := 192, y := 84, width := 128, height := 144 } := by
  norm_num [toPixelRect, clamp, PixelRect.mk.injEq]

/-- C4 (amended): with padding 0, whenever the rect's unpadded bounding
box already lies inside the frame and has nonnegative extents, the output
is exactly the floor-rounded unpadded box (extents forced to at least 1).
In particular the spec's example rect on a 640×480 frame yields
`x = 256, y = 168, width = 128, height = 144`. -/
theorem toPixelRect_unpadded (rect : NormalizedRect) (W H : ℚ)
    (hw : 0 ≤ rect.width * W) (hh : 0 ≤ rect.height * H)
    (hx0 : 0 ≤ rect.xCenter * W - rect.width * W / 2)
    (hx1 : rect.xCenter * W + rect.width * W / 2 ≤ W)
    (hy0 : 0 ≤ rect.yCenter * H - rect.height * H / 2)
    (hy1 : rect.yCenter * H + rect.height * H / 2 ≤ H) :
    toPixelRect rect W H 0 =
      { x := ⌊rect.xCenter * W - rect.width * W / 2⌋
        y := ⌊rect.yCenter * H - rect.height * H / 2⌋
        width := max 1 ⌊rect.width * W⌋
        height := max 1 ⌊rect.height * H⌋ } := by
  have e1 : rect.width * W * (1 + 0) = rect.width * W := by ring
  have e2 : rect.height * H * (1 + 0) = rect.height * H := by ring
  simp only [toPixelRect, e1, e2]
  have cx0 : clamp (rect.xCenter * W - rect.width * W / 2) 0 W =
      rect.xCenter * W - rect.width * W / 2 :=
    clamp_of_le hx0 (by linarith)
  have cx1 : clamp (rect.xCenter * W + rect.width * W / 2) 0 W =
      rect.xCenter * W + rect.width * W / 2 :=
    clamp_of_le (by linarith) hx1
  have cy0 : clamp (rect.yCenter * H - rect.height * H / 2) 0 H =
      rect.yCenter * H - rect.height * H / 2 :=
    clamp_of_le hy0 (by linarith)
  have cy1 : clamp (rect.yCenter * H + rect.height * H / 2) 0 H =
      rect.yCenter * H + rect.height * H / 2 :=
    clamp_of_le (by linarith) hy1
  rw [cx0, cx1, cy0, cy1]
  have ex : rect.xCenter * W + rect.width * W / 2 -
      (rect.xCenter * W - rect.width * W / 2) = rect.width * W := by ring
  have ey : rect.yCenter * H + rect.height * H / 2 -
      (rect.yCenter * H - rect.height * H / 2) = rect.height * H := by ring
  rw [ex, ey]

/-- C4 witness: the corrected worked example, obtained by instantiating
`toPixelRect_unpadded` at the spec's rect and frame. -/
theorem toPixelRect_unpadded_witness :
    toPixelRect ⟨1/2, 1/2, 1/5, 3/10, 0⟩ 640 480 0 =
      { x := 256, y := 168, width := 128, height := 144 } :=
  (toPixelRect_unpadded ⟨1/2, 1/2, 1/5, 3/10, 0⟩ 640 480
    (by norm_num) (by norm_num) (by norm_num) (by norm_num)
    (by norm_num) (by norm_num)).trans (by norm_num)

/-- `ImageData`: frame dimensions in pixels plus the RGBA byte buffer,
modelled as a total function from byte index to channel value. -/
structure ImageData where
  width : ℕ
  height : ℕ
  data : ℤ → ℕ

/-- The index sequence of the loop `for (v = lo; v <= hi; v += step)`.
The fuel argument bounds the number of iterations; `gridRange` below
supplies enough fuel for every `step ≥ 1`, which the source guarantees
(its default stride is 6). -/
def gridScan (fuel : ℕ) (lo hi : ℤ) (step : ℕ) : List ℤ :=
  match fuel with
  | 0 => []
  | fuel + 1 =>
    if lo ≤ hi then lo :: gridScan fuel (lo + step) hi step else []

def gridRange (lo hi : ℤ) (step : ℕ) : List ℤ :=
  gridScan (hi + 1 - lo).toNat lo hi step

/-- The bounding-box computation of `sampleRegionPixels` (lines 139–154):
fold min/max over the polygon's vertices starting from
`(width, height, 0, 0)`, then floor/ceil and clamp each bound into
`[0, dimension - 1]`.  Returned as `(minX, minY, maxX, maxY)`. -/
def sampleBounds (imageData : ImageData) (polygon : List Point) :
    ℤ × ℤ × ℤ × ℤ :=
  let minX := polygon.foldl (fun m point => min m point.x)
    (imageData.width : ℚ)
  let minY := polygon.foldl (fun m point => min m point.y)
    (imageData.height : ℚ)
  let maxX := polygon.foldl (fun m point => max m point.x) 0
  let maxY := polygon.foldl (fun m point => max m point.y) 0
  (clamp ⌊minX⌋ 0 ((imageData.width : ℤ) - 1),
   clamp ⌊minY⌋ 0 ((imageData.height : ℤ) - 1),
   clamp ⌈maxX⌉ 0 ((imageData.width : ℤ) - 1),
   clamp ⌈maxY⌉ 0 ((imageData.height : ℤ) - 1))

/-- The grid points scanned by `sampleRegionPixels` (lines 158–169) that
pass the point-in-polygon test, in scan order (`y` outer, `x` inner). -/
def regionGrid (imageData : ImageData) (polygon : List Point) (step : ℕ) :
    List (ℤ × ℤ) :=
  let bounds := sampleBounds imageData polygon
  (gridRange bounds.2.1 bounds.2.2.2 step).flatMap fun y =>
    ((gridRange bounds.1 bounds.2.2.1 step).filter fun (x : ℤ) =>
      pointInPolygon (x : ℚ) (y : ℚ) polygon).map fun x => (x, y)

/-- `sampleRegionPixels` (lines 130–172): every contained grid point
contributes its four channel bytes `data[(y*width+x)*4 .. +3]`, in scan
order. -/
def sampleRegionPixels (imageData : ImageData) (polygon : List Point)
    (step : ℕ) : List ℕ :=
  (regionGrid imageData polygon step).flatMap fun p =>
    let index := (p.2 * imageData.width + p.1) * 4
    [imageData.data index, imageData.data (index + 1),
     imageData.data (index + 2), imageData.data (index + 3)]

/-- Number of scanned grid points inside the polygon. -/
def containedCount (imageData : ImageData) (polygon : List Point)
    (step : ℕ) : ℕ :=
  (regionGrid imageData polygon step).length

/-- The pixel-buffer indices read by `sampleRegionPixels`. -/
def sampleAccessIndices (imageData : ImageData) (polygon : List Point)
    (step : ℕ) : List ℤ :=
  (regionGrid imageData polygon step).flatMap fun p =>
    let index := (p.2 * imageData.width + p.1) * 4
    [index, index + 1, index + 2, index + 3]

/-- The per-region merge of `faceMesh.onResults` (lines 365–384): each
polygon with at least 3 vertices contributes its sample buffer, and the
per-polygon buffers are concatenated in polygon order into one flat
buffer. -/
def mergeRegionSamples (imageData : ImageData)
    (polygons : List (List Point)) (step : ℕ) : List ℕ :=
  (polygons.foldl
    (fun acc points =>
      if points.length < 3 then acc
      else acc ++ [sampleRegionPixels imageData points step]) []).join

theorem length_flatMap_const {α β : Type} (l : List α) (f : α → List β)
    (k : ℕ) (h : ∀ a, (f a).length = k) :
    (l.flatMap f).length = k * l.length := by
  induction l with
  | nil => simp
  | cons a t ih =>
    simp only [List.flatMap_cons, List.length_append, h a, ih,
      List.length_cons]
    ring

theorem sampleRegionPixels_length (imageData : ImageData)
    (polygon : List Point) (step : ℕ) :
    (sampleRegionPixels imageData polygon step).length =
      4 * containedCount imageData polygon step :=
  length_flatMap_const _ _ 4 (fun _ => rfl)

theorem clamp_mem {α : Type} [LinearOrder α] (v lo hi : α) (h : lo ≤ hi) :
    lo ≤ clamp v lo hi ∧ clamp v lo hi ≤ hi :=
  ⟨le_min (le_max_right _ _) h, min_le_right _ _⟩

theorem gridScan_mem (fuel : ℕ) (lo hi : ℤ) (step : ℕ) (z : ℤ)
    (hz : z ∈ gridScan fuel lo hi step) : lo ≤ z ∧ z ≤ hi := by
  induction fuel generalizing lo with
  | zero => simp [gridScan] at hz
  | succ fuel ih =>
    rw [gridScan] at hz
    by_cases hle : lo ≤ hi
    · rw [if_pos hle] at hz
      rcases List.mem_cons.mp hz with h | h
      · exact ⟨le_of_eq h.symm, h ▸ hle⟩
      · have := ih (lo + step) h
        omega
    · rw [if_neg hle] at hz
      simp at hz

theorem gridRange_mem (lo hi : ℤ) (step : ℕ) (z : ℤ)
    (hz : z ∈ gridRange lo hi step) : lo ≤ z ∧ z ≤ hi :=
  gridScan_mem _ lo hi step z hz

theorem sampleBounds_range (imageData : ImageData) (polygon : List Point)
    (hW : 1 ≤ imageData.width) (hH : 1 ≤ imageData.height) :
    (0 ≤ (sampleBounds imageData polygon).1 ∧
      (sampleBounds imageData polygon).1 ≤ (imageData.width : ℤ) - 1) ∧
    (0 ≤ (sampleBounds imageData polygon).2.1 ∧
      (sampleBounds imageData polygon).2.1 ≤ (imageData.height : ℤ) - 1) ∧
    (0 ≤ (sampleBounds imageData polygon).2.2.1 ∧
      (sampleBounds imageData polygon).2.2.1 ≤ (imageData.width : ℤ) - 1) ∧
    (0 ≤ (sampleBounds imageData polygon).2.2.2 ∧
      (sampleBounds imageData polygon).2.2.2 ≤ (imageData.height : ℤ) - 1) := by
  have hWZ : (0 : ℤ) ≤ (imageData.width : ℤ) - 1 := by omega
  have hHZ : (0 : ℤ) ≤ (imageData.height : ℤ) - 1 := by omega
  simp only [sampleBounds]
  exact ⟨clamp_mem _ _ _ hWZ, clamp_mem _ _ _ hHZ,
    clamp_mem _ _ _ hWZ, clamp_mem _ _ _ hHZ⟩

theorem regionGrid_mem (imageData : ImageData) (polygon : List Point)
    (step : ℕ) (hW : 1 ≤ imageData.width) (hH : 1 ≤ imageData.height)
    (p : ℤ × ℤ) (hp : p ∈ regionGrid imageData polygon step) :
    0 ≤ p.1 ∧ p.1 ≤ (imageData.width : ℤ) - 1 ∧
    0 ≤ p.2 ∧ p.2 ≤ (imageData.height : ℤ) - 1 := by
  simp only [regionGrid] at hp
  rcases List.mem_flatMap.mp hp with ⟨y, hy, hxy⟩
  rcases List.mem_map.mp hxy with ⟨x, hx, rfl⟩
  have hxb := gridRange_mem _ _ step x (List.mem_filter.mp hx).1
  have hyb := gridRange_mem _ _ step y hy
  obtain ⟨⟨b1, b2⟩, ⟨b3, b4⟩, ⟨b5, b6⟩, ⟨b7, b8⟩⟩ :=
    sampleBounds_range imageData polygon hW hH
  exact ⟨by omega, by omega, by omega, by omega⟩

/-- C9: every pixel-buffer read performed by `sampleRegionPixels` is in
bounds: each accessed byte index lies in `[0, 4 · width · height)`,
because the scanned coordinates stay inside the clamped bounding box. -/
theorem sampleAccessIndices_inBounds (imageData : ImageData)
    (polygon : List Point) (step : ℕ) (hW : 1 ≤ imageData.width)
    (hH : 1 ≤ imageData.height) (hstep : 1 ≤ step) :
    ∀ index ∈ sampleAccessIndices imageData polygon step,
      0 ≤ index ∧ index < 4 * ((imageData.width : ℤ) * imageData.height) := by
  intro index hidx
  rcases List.mem_flatMap.mp hidx with ⟨p, hp, hmem⟩
  obtain ⟨h1, h2, h3, h4⟩ := regionGrid_mem imageData polygon step hW hH p hp
  have hmul : p.2 * (imageData.width : ℤ) ≤
      ((imageData.height : ℤ) - 1) * imageData.width :=
    mul_le_mul_of_nonneg_right h4 (by positivity)
  have hmul0 : 0 ≤ p.2 * (imageData.width : ℤ) :=
    mul_nonneg h3 (by positivity)
  have hband : p.2 * (imageData.width : ℤ) + p.1 ≤
      (imageData.width : ℤ) * imageData.height - 1 := by nlinarith
  have hband0 : 0 ≤ p.2 * (imageData.width : ℤ) + p.1 := by omega
  simp only [List.mem_cons, List.not_mem_nil, or_false] at hmem
  rcases hmem with rfl | rfl | rfl | rfl <;> omega

/-- C9 witness: on a concrete 2×2 frame and triangle, the first accessed
index obeys the bounds. -/
theorem sampleAccessIndices_inBounds_witness :
    (1 ≤ 2 ∧ 1 ≤ 1 ∧
      (0 : ℤ) ∈ sampleAccessIndices ⟨2, 2, fun _ => 0⟩
        [⟨0, 0⟩, ⟨2, 0⟩, ⟨0, 2⟩] 1) ∧
    ((0 : ℤ) ≤ 0 ∧ (0 : ℤ) < 4 * (((2 : ℕ) : ℤ) * (2 : ℕ))) :=
  have hmem : (0 : ℤ) ∈ sampleAccessIndices ⟨2, 2, fun _ => 0⟩
      [⟨0, 0⟩, ⟨2, 0⟩, ⟨0, 2⟩] 1 := by
    norm_num [sampleAccessIndices, regionGrid, sampleBounds, gridRange,
      gridScan, pointInPolygon, List.range_succ, clamp]
  ⟨⟨by norm_num, by norm_num, hmem⟩,
    sampleAccessIndices_inBounds ⟨2, 2, fun _ => 0⟩ [⟨0, 0⟩, ⟨2, 0⟩, ⟨0, 2⟩]
      1 (by norm_num) (by norm_num) (by norm_num) 0 hmem⟩

/-- C7: for a region made of two polygons each with at least three
vertices, the merged buffer is polygon-1's samples followed by
polygon-2's samples, and its length is `(n1 + n2) * 4` where `n i` counts
the contained grid points of polygon `i`. -/
theorem mergeRegionSamples_two (imageData : ImageData)
    (p1 p2 : List Point) (step : ℕ)
    (h1 : 3 ≤ p1.length) (h2 : 3 ≤ p2.length) :
    mergeRegionSamples imageData [p1, p2] step =
      sampleRegionPixels imageData p1 step ++
        sampleRegionPixels imageData p2 step ∧
    (mergeRegionSamples imageData [p1, p2] step).length =
      (containedCount imageData p1 step +
        containedCount imageData p2 step) * 4 := by
  have e : mergeRegionSamples imageData [p1, p2] step =
      sampleRegionPixels imageData p1 step ++
        sampleRegionPixels imageData p2 step := by
    rw [mergeRegionSamples]
    rw [List.foldl_cons, List.foldl_cons, List.foldl_nil]
    rw [if_neg (by omega), if_neg (by omega)]
    simp
  refine ⟨e, ?_⟩
  rw [e, List.length_append, sampleRegionPixels_length,
    sampleRegionPixels_length]
  ring

/-- C7 witness: concrete triangles on a concrete frame satisfy the merge
shape and length law. -/
theorem mergeRegionSamples_two_witness :
    (3 ≤ ([⟨0, 0⟩, ⟨2, 0⟩, ⟨0, 2⟩] : List Point).length ∧
      3 ≤ ([⟨1, 1⟩, ⟨2, 1⟩, ⟨1, 2⟩] : List Point).length) ∧
    (mergeRegionSamples ⟨2, 2, fun _ => 0⟩
        [[⟨0, 0⟩, ⟨2, 0⟩, ⟨0, 2⟩], [⟨1, 1⟩, ⟨2, 1⟩, ⟨1, 2⟩]] 1 =
      sampleRegionPixels ⟨2, 2, fun _ => 0⟩ [⟨0, 0⟩, ⟨2, 0⟩, ⟨0, 2⟩] 1 ++
        sampleRegionPixels ⟨2, 2, fun _ => 0⟩ [⟨1, 1⟩, ⟨2, 1⟩, ⟨1, 2⟩] 1 ∧
      (mergeRegionSamples ⟨2, 2, fun _ => 0⟩
          [[⟨0, 0⟩, ⟨2, 0⟩, ⟨0, 2⟩], [⟨1, 1⟩, ⟨2, 1⟩, ⟨1, 2⟩]] 1).length =
        (containedCount ⟨2, 2, fun _ => 0⟩ [⟨0, 0⟩, ⟨2, 0⟩, ⟨0, 2⟩] 1 +
          containedCount ⟨2, 2, fun _ => 0⟩ [⟨1, 1⟩, ⟨2, 1⟩, ⟨1, 2⟩] 1) * 4) :=
  ⟨⟨by norm_num, by norm_num⟩,
    mergeRegionSamples_two ⟨2, 2, fun _ => 0⟩ [⟨0, 0⟩, ⟨2, 0⟩, ⟨0, 2⟩]
      [⟨1, 1⟩, ⟨2, 1⟩, ⟨1, 2⟩] 1 (by norm_num) (by norm_num)⟩

/-- C6: for the square with vertices (0,0),(10,0),(10,10),(0,10),
`pointInPolygon` classifies (5,5) as inside and (15,5) as outside. -/
theorem pointInPolygon_square :
    pointInPolygon 5 5 [⟨0, 0⟩, ⟨10, 0⟩, ⟨10, 10⟩, ⟨0, 10⟩] = true ∧
    pointInPolygon 15 5 [⟨0, 0⟩, ⟨10, 0⟩, ⟨10, 10⟩, ⟨0, 10⟩] = false := by
  constructor <;> norm_num [pointInPolygon, List.range_succ]

/-- Helper for the degenerate two-vertex case: when the horizontal ray at
height `y` separates `p` and `q`, the edge `p → q` and the edge `q → p`
meet that ray at the same abscissa. -/
theorem twoPoint_threshold_comm (y : ℚ) (p q : Point)
    (hp : y < p.y) (hq : ¬y < q.y) :
    (p.x - q.x) * (y - q.y) / (p.y - q.y) + q.x =
    (q.x - p.x) * (y - p.y) / (q.y - p.y) + p.x := by
  have h1 : p.y - q.y ≠ 0 := sub_ne_zero.mpr (by push_neg at hq; linarith)
  have h2 : q.y - p.y ≠ 0 := sub_ne_zero.mpr (by push_neg at hq; linarith)
  field_simp
  ring

/-- C10: every polygon with fewer than three vertices classifies every
point as outside: the empty and single-vertex polygons toggle nothing,
and a two-vertex polygon toggles the inside flag twice on identical
conditions. -/
theorem pointInPolygon_degenerate (polygon : List Point)
    (h : polygon.length < 3) (x y : ℚ) :
    pointInPolygon x y polygon = false := by
  match polygon with
  | [] => rfl
  | [p] => simp [pointInPolygon, List.range_succ]
  | [p, q] =>
    simp [pointInPolygon, List.range_succ]
    by_cases hp : y < p.y <;> by_cases hq : y < q.y <;> simp [hp, hq]
    · rw [twoPoint_threshold_comm y p q hp hq]
      split
      · assumption
      · exact le_of_not_lt (by assumption)
    · rw [← twoPoint_threshold_comm y q p hq hp]
      split
      · assumption
      · exact le_of_not_lt (by assumption)
  | a :: b :: c :: rest =>
    simp only [List.length_cons] at h
    omega

/-- C10 witness: a concrete two-vertex polygon rejects a concrete point. -/
theorem pointInPolygon_degenerate_witness :
    [Point.mk 0 0, Point.mk 5 5].length < 3 ∧
    pointInPolygon 1 2 [Point.mk 0 0, Point.mk 5 5] = false :=
  ⟨by norm_num, pointInPolygon_degenerate [Point.mk 0 0, Point.mk 5 5]
    (by norm_num) 1 2⟩

/-! ## Pipeline coordinator state, status tracker and rate gate -/

/-- `ROI_PADDING` (line 42). -/
def ROI_PADDING : ℚ := 18 / 100

/-- `LOG_INTERVAL_MS` (line 43). -/
def LOG_INTERVAL_MS : ℚ := 1000

/-- The `relativeBoundingBox` payload of a stage-1 detection. -/
structure RelativeBoundingBox where
  xMin : ℚ
  yMin : ℚ
  width : ℚ
  height : ℚ
  deriving DecidableEq, Repr

/-- `getRelativeBox` (lines 48–64): absent box, or zero width/height,
yields no rect; otherwise the box is converted to center format. -/
def getRelativeBox (box : Option RelativeBoundingBox) :
    Option NormalizedRect :=
  match box with
  | none => none
  | some b =>
    if b.width = 0 ∨ b.height = 0 then none
    else some { xCenter := b.xMin + b.width / 2
                yCenter := b.yMin + b.height / 2
                width := b.width
                height := b.height
                rotation := 0 }

/-- `updateStatus` (lines 237–241): edge-triggered status propagation —
an update equal to the last stored status emits nothing.  Returns the new
stored status and the emitted messages. -/
def updateStatus (statusRef : Option String) (message : String) :
    Option String × List String :=
  if statusRef = some message then (statusRef, [])
  else (some message, [message])

/-- The sampling rate gate (lines 359–361 together with `lastLogRef`,
line 208): fire only when `now - lastLog > LOG_INTERVAL_MS`, recording
`now` on fire. -/
def logGate (lastLog now : ℚ) : Bool × ℚ :=
  if now - lastLog > LOG_INTERVAL_MS then (true, now) else (false, lastLog)

/-- Run the gate over a sequence of invocation times; returns the final
timestamp and, per invocation, whether the sampling pass fired. -/
def runLogGate (lastLog : ℚ) : List ℚ → ℚ × List Bool
  | [] => (lastLog, [])
  | t :: ts =>
    let g := logGate lastLog t
    let rest := runLogGate g.2 ts
    (rest.1, g.1 :: rest.2)

/-- Run `updateStatus` over a sequence of updates; returns the final
stored status and the concatenated emissions. -/
def runStatusUpdates (statusRef : Option String) :
    List String → Option String × List String
  | [] => (statusRef, [])
  | m :: ms =>
    let st := updateStatus statusRef m
    let rest := runStatusUpdates st.1 ms
    (rest.1, st.2 ++ rest.2)

/-- The mutable refs owned by the pipeline coordinator (lines 195–208)
that the two completion handlers read and write. -/
structure PipelineState where
  rect : Option NormalizedRect
  roi : Option PixelRect
  landmarks : Option (List NormalizedLandmark)
  frameSize : Option (ℚ × ℚ)
  status : Option String
  lastLog : ℚ
  deriving DecidableEq, Repr

/-- `faceDetection.onResults` (lines 290–345), restricted to the state it
mutates.  Canvas drawing, ROI cropping and the stage-2 dispatch are I/O
and carry no coordinator state, so they are omitted.  Returns the new
state and the status messages emitted. -/
def faceDetectionOnResults (s : PipelineState) (width height : ℚ)
    (detection : Option RelativeBoundingBox) : PipelineState × List String :=
  if width = 0 ∨ height = 0 then (s, [])
  else
    let s1 := { s with frameSize := some (width, height)
                       rect := getRelativeBox detection }
    match getRelativeBox detection with
    | none =>
      let st := updateStatus s1.status "No face detected"
      ({ s1 with roi := none, landmarks := none, status := st.1 }, st.2)
    | some rect =>
      let st := updateStatus s1.status "Tracking face"
      ({ s1 with status := st.1
                 roi := some (toPixelRect rect width height ROI_PADDING) },
        st.2)

/-- `faceMesh.onResults` (lines 347–392): a successful completion remaps
the landmarks and runs the rate-gated sampling pass (only its timestamp
update is coordinator state); a completion without landmarks — or with a
missing frame size or ROI — clears the landmarks only, emitting no
status message. -/
def faceMeshOnResults (s : PipelineState)
    (results : Option (List NormalizedLandmark)) (now : ℚ) : PipelineState :=
  match results, s.frameSize, s.roi with
  | some landmarks, some frame, some roi =>
    let s1 :=
      { s with
          landmarks :=
            some (toNormalizedLandmarks landmarks roi frame.1 frame.2) }
    { s1 with lastLog := (logGate s1.lastLog now).2 }
  | _, _, _ => { s with landmarks := none }

theorem updateStatus_fst (statusRef : Option String) (message : String) :
    (updateStatus statusRef message).1 = some message := by
  rw [updateStatus]
  split
  · next h => exact h
  · rfl

/-- A concrete mid-tracking coordinator state: stage-1 has produced a
rect, an ROI and the tracking status. -/
def trackingState : PipelineState :=
  { rect := some ⟨1/2, 1/2, 1/5, 3/10, 0⟩, roi := some ⟨1, 2, 3, 4⟩,
    landmarks := some [], frameSize := some (640, 480),
    status := some "Tracking face", lastLog := 0 }

/-- C3 counterexample: from a tracking state, a stage-2 completion with no
landmarks clears only the landmarks — the ROI survives and the status
stays at the tracking message, so the three are not invalidated together
and the status never moves to a face-lost signal. -/
theorem stage2_failure_counterexample :
    (faceMeshOnResults trackingState none 0).landmarks = none ∧
    (faceMeshOnResults trackingState none 0).roi = some ⟨1, 2, 3, 4⟩ ∧
    (faceMeshOnResults trackingState none 0).status = some "Tracking face" :=
  ⟨rfl, rfl, rfl⟩

/-- C3 (amended): a stage-1 completion without a detection invalidates
rect, ROI and landmarks together and sets the no-face status; a stage-2
completion without landmarks clears only the landmarks, leaving ROI and
status untouched (so the status keeps whatever value stage-1 set,
including the tracking message). -/
theorem stage_failure_behavior (s : PipelineState) (width height now : ℚ)
    (hwh : ¬(width = 0 ∨ height = 0)) :
    ((faceDetectionOnResults s width height none).1.rect = none ∧
     (faceDetectionOnResults s width height none).1.roi = none ∧
     (faceDetectionOnResults s width height none).1.landmarks = none ∧
     (faceDetectionOnResults s width height none).1.status =
       some "No face detected") ∧
    ((faceMeshOnResults s none now).landmarks = none ∧
     (faceMeshOnResults s none now).roi = s.roi ∧
     (faceMeshOnResults s none now).status = s.status) := by
  constructor
  · rw [faceDetectionOnResults, if_neg hwh]
    exact ⟨rfl, rfl, rfl, updateStatus_fst _ _⟩
  · exact ⟨rfl, rfl, rfl⟩

/-- C3 witness: the amended stage-failure behavior at the concrete
tracking state. -/
theorem stage_failure_behavior_witness :
    ¬((640 : ℚ) = 0 ∨ (480 : ℚ) = 0) ∧
    (((faceDetectionOnResults trackingState 640 480 none).1.rect = none ∧
      (faceDetectionOnResults trackingState 640 480 none).1.roi = none ∧
      (faceDetectionOnResults trackingState 640 480 none).1.landmarks
        = none ∧
      (faceDetectionOnResults trackingState 640 480 none).1.status =
        some "No face detected") ∧
     ((faceMeshOnResults trackingState none 7).landmarks = none ∧
      (faceMeshOnResults trackingState none 7).roi = trackingState.roi ∧
      (faceMeshOnResults trackingState none 7).status =
        trackingState.status)) :=
  ⟨by norm_num, stage_failure_behavior trackingState 640 480 7 (by norm_num)⟩

/-- C5 counterexample: with interval 1000 ms and last-sample timestamp 0,
invoking the gate at t = 0, 200, 999 fires zero times — not once — since
`0 - 0 > 1000` is already false at t = 0. -/
theorem logGate_example_counterexample :
    (runLogGate 0 [0, 200, 999]).2 = [false, false, false] ∧
    ¬(runLogGate 0 [0, 200, 999]).2.count true = 1 := by
  constructor
  · norm_num [runLogGate, logGate, LOG_INTERVAL_MS]
  · norm_num [runLogGate, logGate, LOG_INTERVAL_MS]

/-- C5 (amended): with interval 1000 ms and last-sample timestamp 0, the
gate fires zero times at t = 0, 200, 999, and fires for the first time at
t = 1001. -/
theorem logGate_schedule :
    runLogGate 0 [0, 200, 999, 1001] =
      (1001, [false, false, false, true]) := by
  norm_num [runLogGate, logGate, LOG_INTERVAL_MS]

theorem runStatusUpdates_head (statusRef : Option String) (ms : List String)
    (x : String)
    (hx : (runStatusUpdates statusRef ms).2.head? = some x) :
    statusRef ≠ some x := by
  induction ms generalizing statusRef with
  | nil => simp [runStatusUpdates] at hx
  | cons m ms ih =>
    rw [runStatusUpdates] at hx
    by_cases h : statusRef = some m
    · rw [updateStatus, if_pos h] at hx
      simp only [List.nil_append] at hx
      exact ih statusRef hx
    · rw [updateStatus, if_neg h] at hx
      simp only [List.cons_append, List.nil_append, List.head?_cons,
        Option.some.injEq] at hx
      rw [← hx]
      exact h

/-- C8: the status signal is edge-triggered — in any run of status
updates, from any starting stored status, the emitted messages never
repeat consecutively. -/
theorem statusEmissions_chain (statusRef : Option String)
    (ms : List String) :
    List.Chain' (fun a b => a ≠ b) (runStatusUpdates statusRef ms).2 := by
  induction ms generalizing statusRef with
  | nil => simp [runStatusUpdates]
  | cons m ms ih =>
    rw [runStatusUpdates]
    by_cases h : statusRef = some m
    · rw [updateStatus, if_pos h]
      simpa using ih statusRef
    · rw [updateStatus, if_neg h]
      simp only [List.cons_append, List.nil_append]
      refine List.chain'_cons'.mpr ⟨?_, ih (some m)⟩
      intro y hy he
      exact runStatusUpdates_head (some m) ms y hy (by rw [he])

end FacePipeline
